import Mathlib

/-!
Shallow embedding of the ArticlesService cache-aside content access layer
(NestJS service in src/articles: create / findAll / findOne / update /
remove / invalidateArticleCache) together with its data model.  The cache
is an association list from string keys to cached payloads, the store is a
list of article rows, and every operation returns its result, the updated
state and a trace of the cache and store effects it performed, in order.
-/

/-- Article row: id, title, description, publicationDate (timestamp as an
integer), authorId.  The author relation and createdAt/updatedAt play no
role in the verified claims and are omitted. -/
structure Article where
  id : String
  title : String
  description : String
  publicationDate : Int
  authorId : String
deriving DecidableEq, Repr

/-- The object returned by findAll: data page plus pagination metadata. -/
structure PageResult where
  data : List Article
  total : Nat
  page : Nat
  limit : Nat
  totalPages : Nat
deriving DecidableEq, Repr

/-- A value held in the cache: either a single article (keys article:id)
or a collection query result (keys articles:serializedQuery). -/
inductive CVal where
  | art (a : Article)
  | pageRes (r : PageResult)
deriving DecidableEq, Repr

/-- Error taxonomy of the service layer.  notFound is NotFoundException,
forbidden is ForbiddenException, invalidRequest is BadRequestException;
internal stands for an internal-error signal (HTTP 500), which the
specification prescribes for a post-write re-read miss. -/
inductive Err where
  | notFound
  | forbidden
  | invalidRequest
  | internal
deriving DecidableEq, Repr

/-- The effective filters after destructuring with defaults:
page = 1 and limit = 10 when omitted, the rest optional. -/
structure EffectiveFilters where
  page : Nat
  limit : Nat
  authorId : Option String
  fromDate : Option Int
  toDate : Option Int
  search : Option String
deriving DecidableEq, Repr

/-- One observable cache or store effect, in the order performed.
cSet records the ttl in milliseconds passed to cacheManager.set. -/
inductive Eff where
  | cGet (key : String)
  | cSet (key : String) (v : CVal) (ttlMs : Nat)
  | cDel (key : String)
  | sFindOne (id : String)
  | sQuery (f : EffectiveFilters)
  | sSave (a : Article)
  | sRemove (id : String)
deriving DecidableEq, Repr

/-- Classifier for cache-delete effects. -/
def isCacheDel : Eff → Bool
  | Eff.cDel _ => true
  | _ => false

/-- Classifier for cache-write effects. -/
def isCacheSet : Eff → Bool
  | Eff.cSet _ _ _ => true
  | _ => false

/-- Classifier for store effects (reads and mutations). -/
def isStoreEff : Eff → Bool
  | Eff.sFindOne _ => true
  | Eff.sQuery _ => true
  | Eff.sSave _ => true
  | Eff.sRemove _ => true
  | _ => false

/-- Classifier for store mutations. -/
def isStoreMut : Eff → Bool
  | Eff.sSave _ => true
  | Eff.sRemove _ => true
  | _ => false

/-- Combined state the service operates on: the cache (key-value entries)
and the durable store (article rows). -/
structure ServiceState where
  cache : List (String × CVal)
  store : List Article
deriving DecidableEq, Repr

/-- cacheManager.get: first entry with the key, if any. -/
def cacheGet : List (String × CVal) → String → Option CVal
  | [], _ => none
  | e :: rest, k => if e.1 = k then some e.2 else cacheGet rest k

/-- Remove every entry with the key (cacheManager.del). -/
def cacheDel : List (String × CVal) → String → List (String × CVal)
  | [], _ => []
  | e :: rest, k => if e.1 = k then cacheDel rest k else e :: cacheDel rest k

/-- cacheManager.set: overwrite-or-insert at the key. -/
def cacheSet (c : List (String × CVal)) (k : String) (v : CVal) :
    List (String × CVal) :=
  (k, v) :: cacheDel c k

/-- repository.findOne by primary key. -/
def storeFindOne : List Article → String → Option Article
  | [], _ => none
  | a :: rest, i => if a.id = i then some a else storeFindOne rest i

/-- repository.save: update the row with the same id, or insert. -/
def storeSave (rows : List Article) (a : Article) : List Article :=
  if rows.any (fun b => b.id = a.id) then
    rows.map (fun b => if b.id = a.id then a else b)
  else
    rows ++ [a]

/-- repository.remove: delete the row with the id. -/
def storeRemove : List Article → String → List Article
  | [], _ => []
  | a :: rest, i => if a.id = i then storeRemove rest i else a :: storeRemove rest i

/-- Boolean test that one character list starts with another. -/
def listPrefixOf : List Char → List Char → Bool
  | [], _ => true
  | _ :: _, [] => false
  | a :: as, b :: bs => a == b && listPrefixOf as bs

/-- Boolean substring test on character lists. -/
def listSubstr (needle : List Char) : List Char → Bool
  | [] => needle.isEmpty
  | c :: t => listPrefixOf needle (c :: t) || listSubstr needle t

/-- Lower-cased character list of a string. -/
def toLowerChars (s : String) : List Char :=
  s.toList.map Char.toLower

/-- Case-insensitive substring test: the semantics of
column ILIKE percent-pattern-percent with the search text as the pattern. -/
def containsCI (hay pat : String) : Bool :=
  listSubstr (toLowerChars pat) (toLowerChars hay)

/-- The row predicate assembled by findAll via andWhere calls, mirroring
the source branch structure: author equality when authorId was supplied;
BETWEEN when both dates supplied, else a single bound when one is; an
ILIKE match on title or description when search was supplied. -/
def rowMatches (f : EffectiveFilters) (a : Article) : Bool :=
  (match f.authorId with
   | some aid => decide (a.authorId = aid)
   | none => true) &&
  (match f.fromDate, f.toDate with
   | some fd, some td => decide (fd ≤ a.publicationDate ∧ a.publicationDate ≤ td)
   | some fd, none => decide (fd ≤ a.publicationDate)
   | none, some td => decide (a.publicationDate ≤ td)
   | none, none => true) &&
  (match f.search with
   | some q => containsCI a.title q || containsCI a.description q
   | none => true)

/-- Insert an article into a list sorted by publicationDate descending. -/
def insertByDateDesc (a : Article) : List Article → List Article
  | [] => [a]
  | b :: rest =>
      if b.publicationDate ≤ a.publicationDate then a :: b :: rest
      else b :: insertByDateDesc a rest

/-- orderBy publicationDate DESC. -/
def orderByDateDesc (rows : List Article) : List Article :=
  rows.foldr insertByDateDesc []

/-- The store side of findAll on a cache miss: filter, order by date
descending, skip (page - 1) * limit rows, take limit rows; total is the
count of all matching rows and totalPages is the ceiling of
total / limit, which Math.ceil computes and which on naturals is
(total + limit - 1) / limit. -/
def findAllCore (f : EffectiveFilters) (rows : List Article) : PageResult :=
  let skip := (f.page - 1) * f.limit
  let matching := rows.filter (rowMatches f)
  let data := ((orderByDateDesc matching).drop skip).take f.limit
  let total := matching.length
  { data := data
    total := total
    page := f.page
    limit := f.limit
    totalPages := (total + f.limit - 1) / f.limit }

/-- Predicate written from the specification words, for comparison with
rowMatches: author equality if authorId present, fromDate alone means ≥,
toDate alone means ≤, both mean an inclusive BETWEEN, and a
case-insensitive substring match on title OR description if search is
present. -/
def specRowMatches (f : EffectiveFilters) (a : Article) : Prop :=
  (∀ aid, f.authorId = some aid → a.authorId = aid) ∧
  (∀ fd, f.fromDate = some fd → fd ≤ a.publicationDate) ∧
  (∀ td, f.toDate = some td → a.publicationDate ≤ td) ∧
  (∀ q, f.search = some q →
    (containsCI a.title q = true ∨ containsCI a.description q = true))

/-- One supplied field of the incoming query object QueryArticlesDto. -/
inductive QField where
  | page (n : Nat)
  | limit (n : Nat)
  | authorId (s : String)
  | fromDate (d : Int)
  | toDate (d : Int)
  | search (s : String)
deriving DecidableEq, Repr

/-- The incoming query object: its supplied fields in insertion order,
as a JavaScript object presents them to JSON.stringify.  Absent fields
are simply not in the list. -/
def QueryObj := List QField
deriving instance DecidableEq, Repr for QueryObj

/-- Destructuring page with default 1. -/
def qPage : QueryObj → Nat
  | [] => 1
  | QField.page n :: _ => n
  | _ :: rest => qPage rest

/-- Destructuring limit with default 10. -/
def qLimit : QueryObj → Nat
  | [] => 10
  | QField.limit n :: _ => n
  | _ :: rest => qLimit rest

/-- Destructuring authorId (no default). -/
def qAuthorId : QueryObj → Option String
  | [] => none
  | QField.authorId s :: _ => some s
  | _ :: rest => qAuthorId rest

/-- Destructuring fromDate (no default). -/
def qFromDate : QueryObj → Option Int
  | [] => none
  | QField.fromDate d :: _ => some d
  | _ :: rest => qFromDate rest

/-- Destructuring toDate (no default). -/
def qToDate : QueryObj → Option Int
  | [] => none
  | QField.toDate d :: _ => some d
  | _ :: rest => qToDate rest

/-- Destructuring search (no default). -/
def qSearch : QueryObj → Option String
  | [] => none
  | QField.search s :: _ => some s
  | _ :: rest => qSearch rest

/-- The effective filters denoted by a query object: defaults applied,
field order forgotten. -/
def effectiveFilters (q : QueryObj) : EffectiveFilters :=
  { page := qPage q
    limit := qLimit q
    authorId := qAuthorId q
    fromDate := qFromDate q
    toDate := qToDate q
    search := qSearch q }

/-- JSON.stringify of one supplied field. -/
def stringifyField : QField → String
  | QField.page n => "\"page\":" ++ toString n
  | QField.limit n => "\"limit\":" ++ toString n
  | QField.authorId s => "\"authorId\":\"" ++ s ++ "\""
  | QField.fromDate d => "\"fromDate\":" ++ toString d
  | QField.toDate d => "\"toDate\":" ++ toString d
  | QField.search s => "\"search\":\"" ++ s ++ "\""

/-- JSON.stringify of the query object: the supplied fields, in their
insertion order, wrapped in braces. -/
def jsonStringify (q : QueryObj) : String :=
  "\x7b" ++ String.intercalate ("," ) (q.map stringifyField) ++ "\x7d"

/-- The collection cache key derived by findAll. -/
def articlesCacheKey (q : QueryObj) : String :=
  "articles:" ++ jsonStringify q

/-- The single-entity cache key used by findOne and the invalidation. -/
def articleKey (id : String) : String :=
  "article:" ++ id

deriving instance DecidableEq for Except

/-- The partial update payload UpdateArticleDto: every field optional;
none stands for a field left undefined. -/
structure UpdateArticleDto where
  title : Option String
  description : Option String
  publicationDate : Option Int
deriving DecidableEq, Repr

/-- The creation payload CreateArticleDto. -/
structure CreateArticleDto where
  title : String
  description : String
  publicationDate : Int
deriving DecidableEq, Repr

/-- Object.values(updateArticleDto).some(v => v !== undefined). -/
def hasFields (d : UpdateArticleDto) : Bool :=
  d.title.isSome || d.description.isSome || d.publicationDate.isSome

/-- Object.assign(article, updateArticleDto): supplied fields overwrite,
absent fields keep their prior values. -/
def applyUpdate (a : Article) (d : UpdateArticleDto) : Article :=
  { a with
    title := d.title.getD a.title
    description := d.description.getD a.description
    publicationDate := d.publicationDate.getD a.publicationDate }

/-- repository.create followed by save assigns authorId from the caller
principal; the generated primary key is passed in as genId. -/
def mkNewArticle (d : CreateArticleDto) (userId genId : String) : Article :=
  { id := genId
    title := d.title
    description := d.description
    publicationDate := d.publicationDate
    authorId := userId }

/-- The tail of create after the save: the re-read result is checked and
a missing row raises NotFoundException (source lines 47-51); a present
row is returned.  The thrown signal is notFound, not internal. -/
def rereadOrFail (reread : Option Article) : Except Err Article :=
  match reread with
  | none => Except.error Err.notFound
  | some a => Except.ok a

/-- ArticlesService.create: build the article with authorId from the
principal, save it, then re-read it by id and fail via rereadOrFail when
the re-read misses. -/
def create (d : CreateArticleDto) (userId genId : String) (s : ServiceState) :
    Except Err Article × ServiceState × List Eff :=
  let article := mkNewArticle d userId genId
  let store2 := storeSave s.store article
  (rereadOrFail (storeFindOne store2 genId),
   { s with store := store2 },
   [Eff.sSave article, Eff.sFindOne genId])

/-- ArticlesService.findAll: derive the cache key from the raw query
object, return the cached value on a hit; on a miss run the store query,
build the PageResult and cache it for 300000 ms.  The cached value is
returned as-is (the source casts it), so the result type is CVal. -/
def findAll (q : QueryObj) (s : ServiceState) :
    CVal × ServiceState × List Eff :=
  let key := articlesCacheKey q
  match cacheGet s.cache key with
  | some v => (v, s, [Eff.cGet key])
  | none =>
      let f := effectiveFilters q
      let result := findAllCore f s.store
      (CVal.pageRes result,
       { s with cache := cacheSet s.cache key (CVal.pageRes result) },
       [Eff.cGet key, Eff.sQuery f, Eff.cSet key (CVal.pageRes result) 300000])

/-- ArticlesService.findOne: cache hit returns the cached value; miss
queries the store by id, raises NotFoundException when absent, else
caches the row for 300000 ms and returns it. -/
def findOne (id : String) (s : ServiceState) :
    Except Err CVal × ServiceState × List Eff :=
  let key := articleKey id
  match cacheGet s.cache key with
  | some v => (Except.ok v, s, [Eff.cGet key])
  | none =>
      match storeFindOne s.store id with
      | none => (Except.error Err.notFound, s, [Eff.cGet key, Eff.sFindOne id])
      | some a =>
          (Except.ok (CVal.art a),
           { s with cache := cacheSet s.cache key (CVal.art a) },
           [Eff.cGet key, Eff.sFindOne id, Eff.cSet key (CVal.art a) 300000])

/-- ArticlesService.invalidateArticleCache: delete the single-entity key. -/
def invalidateArticleCache (c : List (String × CVal)) (id : String) :
    List (String × CVal) :=
  cacheDel c (articleKey id)

/-- ArticlesService.update: reject an all-unset payload first, then
resolve through findOne, then check ownership (a cached non-article value
has no authorId, which can never equal the principal id), then merge the
payload, save, and invalidate the single-entity cache key. -/
def update (id : String) (dto : UpdateArticleDto) (userId : String)
    (s : ServiceState) : Except Err CVal × ServiceState × List Eff :=
  if hasFields dto = false then
    (Except.error Err.invalidRequest, s, [])
  else
    match findOne id s with
    | (Except.error e, s1, t1) => (Except.error e, s1, t1)
    | (Except.ok v, s1, t1) =>
        match v with
        | CVal.pageRes _ => (Except.error Err.forbidden, s1, t1)
        | CVal.art a =>
            if a.authorId ≠ userId then
              (Except.error Err.forbidden, s1, t1)
            else
              let a2 := applyUpdate a dto
              (Except.ok (CVal.art a2),
               { cache := invalidateArticleCache s1.cache id
                 store := storeSave s1.store a2 },
               t1 ++ [Eff.sSave a2, Eff.cDel (articleKey id)])

/-- ArticlesService.remove: resolve through findOne, check ownership,
delete the row, and invalidate the single-entity cache key. -/
def remove (id : String) (userId : String) (s : ServiceState) :
    Except Err Unit × ServiceState × List Eff :=
  match findOne id s with
  | (Except.error e, s1, t1) => (Except.error e, s1, t1)
  | (Except.ok v, s1, t1) =>
      match v with
      | CVal.pageRes _ => (Except.error Err.forbidden, s1, t1)
      | CVal.art a =>
          if a.authorId ≠ userId then
            (Except.error Err.forbidden, s1, t1)
          else
            (Except.ok (),
             { cache := invalidateArticleCache s1.cache id
               store := storeRemove s1.store a.id },
             t1 ++ [Eff.sRemove a.id, Eff.cDel (articleKey id)])

/-- Error type for the run of findOne against a fallible cache layer:
either a service error or a propagated cache-layer failure. -/
inductive ErrF where
  | app (e : Err)
  | cacheErr
deriving DecidableEq, Repr

/-- ArticlesService.findOne as written, run against a cache layer whose
get and set calls may reject: both calls are awaited with no try/catch,
so a rejection propagates out of the request.  getResp is the outcome of
cacheManager.get, setResp the outcome of cacheManager.set. -/
def findOneF (id : String) (getResp : Except Unit (Option CVal))
    (setResp : Except Unit Unit) (store : List Article) : Except ErrF CVal :=
  match getResp with
  | Except.error _ => Except.error ErrF.cacheErr
  | Except.ok (some v) => Except.ok v
  | Except.ok none =>
      match storeFindOne store id with
      | none => Except.error (ErrF.app Err.notFound)
      | some a =>
          match setResp with
          | Except.error _ => Except.error ErrF.cacheErr
          | Except.ok _ => Except.ok (CVal.art a)

/-- Fixture article owned by principal u1. -/
def art1 : Article :=
  { id := "a1"
    title := "Intro"
    description := "NestJS basics"
    publicationDate := 5
    authorId := "u1" }

/-- Fixture article after the update that sets the title to Intro2. -/
def art1upd : Article :=
  { art1 with title := "Intro2" }

/-- Fixture page result cached under the empty collection key. -/
def pr0 : PageResult :=
  { data := [art1], total := 1, page := 1, limit := 10, totalPages := 1 }

/-- Fixture update payload setting only the title. -/
def updDto : UpdateArticleDto :=
  { title := some "Intro2", description := none, publicationDate := none }

/-- The all-unset update payload. -/
def emptyDto : UpdateArticleDto :=
  { title := none, description := none, publicationDate := none }

/-- Fixture creation payload. -/
def cdto : CreateArticleDto :=
  { title := "Intro", description := "NestJS basics", publicationDate := 5 }

/-- State with an empty cache and art1 in the store. -/
def st0 : ServiceState :=
  { cache := [], store := [art1] }

/-- State with nothing cached and nothing stored. -/
def stEmpty : ServiceState :=
  { cache := [], store := [] }

/-- State with a collection entry and the art1 entity entry cached. -/
def stBoth : ServiceState :=
  { cache := [(articlesCacheKey [], CVal.pageRes pr0),
              (articleKey ("a1"), CVal.art art1)]
    store := [art1] }

/-- State with only the collection entry cached, art1 in the store. -/
def stColl : ServiceState :=
  { cache := [(articlesCacheKey [], CVal.pageRes pr0)]
    store := [art1] }

/-- Fixture row n for the pagination instance: distinct ids and dates. -/
def mkRow (n : Nat) : Article :=
  { id := toString n
    title := "t"
    description := "d"
    publicationDate := Int.ofNat n
    authorId := "u" }

/-- Twenty-five matching rows. -/
def rows25 : List Article :=
  (List.range 25).map mkRow

/-- Effective filters page 2, limit 10, no filters. -/
def f25 : EffectiveFilters :=
  { page := 2, limit := 10, authorId := none, fromDate := none,
    toDate := none, search := none }

theorem cacheGet_cacheDel_self (c : List (String × CVal)) (k : String) :
    cacheGet (cacheDel c k) k = none := by
  induction c with
  | nil => rfl
  | cons e rest ih =>
      by_cases h : e.1 = k
      · simp [cacheDel, h, ih]
      · simp [cacheDel, cacheGet, h, ih]

theorem cacheGet_cacheDel_ne (c : List (String × CVal)) (k k2 : String)
    (h : k2 ≠ k) : cacheGet (cacheDel c k) k2 = cacheGet c k2 := by
  induction c with
  | nil => rfl
  | cons e rest ih =>
      have hkk : ¬(k = k2) := fun hh => h hh.symm
      by_cases he : e.1 = k
      · simp [cacheDel, cacheGet, he, hkk, ih]
      · by_cases he2 : e.1 = k2 <;>
          simp [cacheDel, cacheGet, he, he2, h, hkk, ih]

theorem cacheGet_cacheSet_self (c : List (String × CVal)) (k : String)
    (v : CVal) : cacheGet (cacheSet c k v) k = some v := by
  simp [cacheSet, cacheGet]

theorem cacheGet_cacheSet_ne (c : List (String × CVal)) (k k2 : String)
    (v : CVal) (h : k2 ≠ k) :
    cacheGet (cacheSet c k v) k2 = cacheGet c k2 := by
  have hne : ¬(k = k2) := fun hh => h hh.symm
  simp [cacheSet, cacheGet, hne, cacheGet_cacheDel_ne c k k2 h]

/-- C1: the list operation derives its cache key as the literal
JSON.stringify of the raw query object, so the two queries with empty
fields and with page 1 and limit 10 supplied explicitly denote the same
effective filters yet receive different cache keys.  This refutes the
claim that equal effective filters always collide to the same key. -/
theorem articles_cacheKey_not_canonical :
    effectiveFilters [] = effectiveFilters [QField.page 1, QField.limit 10] ∧
    articlesCacheKey [] ≠ articlesCacheKey [QField.page 1, QField.limit 10] := by
  constructor
  · rfl
  · decide

/-- C5: update with a payload in which every field is unset fails with
InvalidRequest and performs no cache or store effect at all: the state is
returned unchanged and the effect trace is empty. -/
theorem update_allUnset_before_effects (id userId : String)
    (dto : UpdateArticleDto) (s : ServiceState)
    (h : hasFields dto = false) :
    update id dto userId s = (Except.error Err.invalidRequest, s, []) := by
  simp [update, h]

/-- Witness for C5 at the concrete all-unset payload. -/
theorem update_allUnset_before_effects_witness :
    update ("a1") emptyDto ("u2") st0 =
      (Except.error Err.invalidRequest, st0, []) :=
  update_allUnset_before_effects ("a1") ("u2") emptyDto st0 (by decide)

/-- C6: findOne run against a fallible cache layer: with the article
present in the store, a rejected cacheManager.get call makes the whole
request fail, and so does a rejected cacheManager.set call after a
successful store read, because both are awaited without any try/catch.
This refutes the claim that cache errors degrade to a miss or a skipped
write. -/
theorem cache_error_fails_request :
    storeFindOne st0.store ("a1") = some art1 ∧
    findOneF ("a1") (Except.error ()) (Except.ok ()) st0.store =
      Except.error ErrF.cacheErr ∧
    findOneF ("a1") (Except.ok none) (Except.error ()) st0.store =
      Except.error ErrF.cacheErr := by
  decide

/-- C10: create persists authorId from the principal and on success
returns the re-read article, but when the re-read after the save misses,
the code raises the NotFound signal (NotFoundException), not an internal
error, contradicting the claim that the failure is surfaced as internal
and not as NotFound. -/
theorem create_post_write_miss_divergence :
    (mkNewArticle cdto ("u1") ("a9")).authorId = "u1" ∧
    (create cdto ("u1") ("a9") stEmpty).1 =
      Except.ok (mkNewArticle cdto ("u1") ("a9")) ∧
    rereadOrFail none = Except.error Err.notFound ∧
    Err.notFound ≠ Err.internal := by
  decide

/-- C3: findOne fails with NotFound exactly when the id is absent from
both the cache and the store, and in that case the state is unchanged
and the trace holds no cache write: only the cache probe and the store
lookup. -/
theorem get_notFound_iff_absent (id : String) (s : ServiceState) :
    ((findOne id s).1 = Except.error Err.notFound ↔
      (cacheGet s.cache (articleKey id) = none ∧
       storeFindOne s.store id = none)) ∧
    (cacheGet s.cache (articleKey id) = none →
      storeFindOne s.store id = none →
      findOne id s = (Except.error Err.notFound, s,
        [Eff.cGet (articleKey id), Eff.sFindOne id])) := by
  cases hc : cacheGet s.cache (articleKey id) with
  | some v => simp [findOne, hc]
  | none => cases hs : storeFindOne s.store id <;> simp [findOne, hc, hs]

/-- Witness for C3: an id absent from cache and store. -/
theorem get_notFound_iff_absent_witness :
    findOne ("zz") st0 = (Except.error Err.notFound, st0,
      [Eff.cGet (articleKey ("zz")), Eff.sFindOne ("zz")]) :=
  (get_notFound_iff_absent ("zz") st0).2 (by decide) (by decide)

/-- C2: the cache-aside read contract of findAll and findOne.  On a hit
the cached value is returned with no store effect and no state change;
on a miss the store is queried, the loaded value is written to the cache
at the derived key with a ttl of 300000 ms (five minutes) as the only
cache write, and the loaded value is returned. -/
theorem cacheAside_read_contract (q : QueryObj) (id : String)
    (s : ServiceState) :
    (∀ v, cacheGet s.cache (articlesCacheKey q) = some v →
      findAll q s = (v, s, [Eff.cGet (articlesCacheKey q)])) ∧
    (cacheGet s.cache (articlesCacheKey q) = none →
      findAll q s =
        (CVal.pageRes (findAllCore (effectiveFilters q) s.store),
         { s with
             cache := cacheSet s.cache (articlesCacheKey q)
               (CVal.pageRes (findAllCore (effectiveFilters q) s.store)) },
         [Eff.cGet (articlesCacheKey q), Eff.sQuery (effectiveFilters q),
          Eff.cSet (articlesCacheKey q)
            (CVal.pageRes (findAllCore (effectiveFilters q) s.store))
            300000])) ∧
    (∀ v, cacheGet s.cache (articleKey id) = some v →
      findOne id s = (Except.ok v, s, [Eff.cGet (articleKey id)])) ∧
    (∀ a, cacheGet s.cache (articleKey id) = none →
      storeFindOne s.store id = some a →
      findOne id s =
        (Except.ok (CVal.art a),
         { s with cache := cacheSet s.cache (articleKey id) (CVal.art a) },
         [Eff.cGet (articleKey id), Eff.sFindOne id,
          Eff.cSet (articleKey id) (CVal.art a) 300000])) := by
  refine ⟨fun v hv => ?_, fun hn => ?_, fun v hv => ?_, fun a hn hs => ?_⟩
  · simp [findAll, hv]
  · simp [findAll, hn]
  · simp [findOne, hv]
  · simp [findOne, hn, hs]

/-- Witness for C2: hits against stBoth, misses against st0. -/
theorem cacheAside_read_contract_witness :
    findAll [] stBoth =
      (CVal.pageRes pr0, stBoth, [Eff.cGet (articlesCacheKey [])]) ∧
    findOne ("a1") stBoth =
      (Except.ok (CVal.art art1), stBoth, [Eff.cGet (articleKey ("a1"))]) ∧
    findAll [] st0 =
      (CVal.pageRes (findAllCore (effectiveFilters []) st0.store),
       { st0 with
           cache := cacheSet st0.cache (articlesCacheKey [])
             (CVal.pageRes (findAllCore (effectiveFilters []) st0.store)) },
       [Eff.cGet (articlesCacheKey []), Eff.sQuery (effectiveFilters []),
        Eff.cSet (articlesCacheKey [])
          (CVal.pageRes (findAllCore (effectiveFilters []) st0.store))
          300000]) ∧
    findOne ("a1") st0 =
      (Except.ok (CVal.art art1),
       { st0 with
           cache := cacheSet st0.cache (articleKey ("a1"))
             (CVal.art art1) },
       [Eff.cGet (articleKey ("a1")), Eff.sFindOne ("a1"),
        Eff.cSet (articleKey ("a1")) (CVal.art art1) 300000]) :=
  ⟨(cacheAside_read_contract [] ("a1") stBoth).1 (CVal.pageRes pr0)
      (by decide),
   (cacheAside_read_contract [] ("a1") stBoth).2.2.1 (CVal.art art1)
      (by decide),
   (cacheAside_read_contract [] ("a1") st0).2.1 (by decide),
   (cacheAside_read_contract [] ("a1") st0).2.2.2 art1 (by decide)
      (by decide)⟩

/-- C8: the predicate assembled by findAll from the source branch
structure agrees with the specification reading: author equality only
when authorId is present, fromDate alone means at least, toDate alone
means at most, both mean an inclusive BETWEEN, and a case-insensitive
substring match on title or description only when search is present. -/
theorem predicate_matches_spec (f : EffectiveFilters) (a : Article) :
    rowMatches f a = true ↔ specRowMatches f a := by
  obtain ⟨p, l, aid, fd, td, se⟩ := f
  cases aid <;> cases fd <;> cases td <;> cases se <;>
    simp [rowMatches, specRowMatches, and_assoc]

/-- C4 counterexample: on an existing article with a different owner, an
update whose payload is all-unset fails with InvalidRequest, not with
Forbidden, so the claim that update fails with Forbidden exactly when the
principal differs from the author does not hold as stated. -/
theorem update_allUnset_nonOwner_counterexample :
    storeFindOne st0.store ("a1") = some art1 ∧
    art1.authorId ≠ "u2" ∧
    (update ("a1") emptyDto ("u2") st0).1 = Except.error Err.invalidRequest ∧
    ¬((update ("a1") emptyDto ("u2") st0).1 = Except.error Err.forbidden ↔
        art1.authorId ≠ "u2") := by
  decide

/-- C4 (amended): for update restricted to payloads with at least one set
field, and for remove unconditionally: when the article resolves (from
the cache or, on a cache miss, from the store) the operation fails with
Forbidden exactly when the principal differs from the author, and never
with NotFound; when the id is absent from both cache and store the
operation fails with NotFound. -/
theorem ownership_after_existence (id userId : String)
    (dto : UpdateArticleDto) (a : Article) (s : ServiceState)
    (hf : hasFields dto = true) :
    ((cacheGet s.cache (articleKey id) = some (CVal.art a) ∨
        (cacheGet s.cache (articleKey id) = none ∧
         storeFindOne s.store id = some a)) →
      (((update id dto userId s).1 = Except.error Err.forbidden ↔
          a.authorId ≠ userId) ∧
       ((remove id userId s).1 = Except.error Err.forbidden ↔
          a.authorId ≠ userId) ∧
       (update id dto userId s).1 ≠ Except.error Err.notFound ∧
       (remove id userId s).1 ≠ Except.error Err.notFound)) ∧
    ((cacheGet s.cache (articleKey id) = none ∧
      storeFindOne s.store id = none) →
      ((update id dto userId s).1 = Except.error Err.notFound ∧
       (remove id userId s).1 = Except.error Err.notFound)) := by
  constructor
  · rintro (hc | ⟨hc, hs⟩)
    · by_cases ha : a.authorId = userId <;>
        simp [update, remove, findOne, hf, hc, ha]
    · by_cases ha : a.authorId = userId <;>
        simp [update, remove, findOne, hf, hc, hs, ha]
  · rintro ⟨hc, hs⟩
    simp [update, remove, findOne, hf, hc, hs]

/-- Witness for the amended C4: a non-owner on an existing article gets
Forbidden from update and remove; a missing id gets NotFound. -/
theorem ownership_after_existence_witness :
    (update ("a1") updDto ("u2") stColl).1 = Except.error Err.forbidden ∧
    (remove ("a1") ("u2") stColl).1 = Except.error Err.forbidden ∧
    (update ("zz") updDto ("u2") stEmpty).1 = Except.error Err.notFound ∧
    (remove ("zz") ("u2") stEmpty).1 = Except.error Err.notFound := by
  have h1 := (ownership_after_existence ("a1") ("u2") updDto art1 stColl
    (by decide)).1 (Or.inr ⟨by decide, by decide⟩)
  have h2 := (ownership_after_existence ("zz") ("u2") updDto art1 stEmpty
    (by decide)).2 ⟨by decide, by decide⟩
  exact ⟨h1.1.mpr (by decide), h1.2.1.mpr (by decide), h2.1, h2.2⟩

/-- Ceiling division on naturals, phrased through the floor division and
the remainder: for a positive divisor, (t + l - 1) / l rounds t / l up
exactly when the remainder is nonzero. -/
theorem ceil_div_char (t l : Nat) (hl : 1 ≤ l) :
    (t + l - 1) / l = t / l + (if t % l = 0 then 0 else 1) := by
  cases t with
  | zero =>
      simp [Nat.div_eq_of_lt (by omega : l - 1 < l)]
  | succ n =>
      have h1 : n + 1 + l - 1 = n + l := by omega
      rw [h1, Nat.add_div_right _ (by omega : 0 < l), Nat.succ_div]
      by_cases hd : l ∣ (n + 1)
      · have hm : (n + 1) % l = 0 := Nat.mod_eq_zero_of_dvd hd
        simp [hd, hm]
      · have hm : ¬((n + 1) % l = 0) := by
          intro h
          exact hd (Nat.dvd_of_mod_eq_zero h)
        simp [hd, hm]

/-- C7: the store side of list skips exactly (page - 1) * limit rows of
the ordered matching rows and takes at most limit rows; total is the
count of all matching rows, page and limit are echoed back, and
totalPages is the ceiling of total / limit, characterized through floor
division and remainder. -/
theorem list_pagination_contract (f : EffectiveFilters) (rows : List Article)
    (_hp : 1 ≤ f.page) (hl : 1 ≤ f.limit) :
    (findAllCore f rows).data =
      ((orderByDateDesc (rows.filter (rowMatches f))).drop
        ((f.page - 1) * f.limit)).take f.limit ∧
    (findAllCore f rows).data.length ≤ f.limit ∧
    (findAllCore f rows).total = (rows.filter (rowMatches f)).length ∧
    (findAllCore f rows).page = f.page ∧
    (findAllCore f rows).limit = f.limit ∧
    (findAllCore f rows).totalPages =
      (findAllCore f rows).total / f.limit +
        (if (findAllCore f rows).total % f.limit = 0 then 0 else 1) := by
  refine ⟨rfl, ?_, rfl, rfl, rfl, ?_⟩
  · exact List.length_take_le f.limit _
  · exact ceil_div_char (rows.filter (rowMatches f)).length f.limit hl

/-- Witness for C7 at the documented instance: page 2, limit 10 on 25
matching rows yields 10 items, total 25, totalPages 3. -/
theorem list_pagination_contract_witness :
    (findAllCore f25 rows25).data.length = 10 ∧
    (findAllCore f25 rows25).total = 25 ∧
    (findAllCore f25 rows25).totalPages = 3 ∧
    (findAllCore f25 rows25).page = 2 ∧
    (findAllCore f25 rows25).limit = 10 := by
  have h := list_pagination_contract f25 rows25 (by decide) (by decide)
  exact ⟨by decide, by decide, by decide, h.2.2.2.1, h.2.2.2.2.1⟩

/-- C9: every successful update and remove leaves the single-entity key
article:id absent from the cache, leaves every other cache entry exactly
as it was before the call, performs exactly one cache deletion (of that
key), and performs it right after the store mutation. -/
theorem mutation_invalidation_frame (id userId : String)
    (dto : UpdateArticleDto) (s : ServiceState) :
    (∀ v, (update id dto userId s).1 = Except.ok v →
       (cacheGet (update id dto userId s).2.1.cache (articleKey id) = none ∧
        (∀ k, k ≠ articleKey id →
          cacheGet (update id dto userId s).2.1.cache k = cacheGet s.cache k) ∧
        ((update id dto userId s).2.2.filter isCacheDel =
          [Eff.cDel (articleKey id)]) ∧
        (∃ pre m, isStoreMut m = true ∧
          (update id dto userId s).2.2 = pre ++ [m, Eff.cDel (articleKey id)]))) ∧
    ((remove id userId s).1 = Except.ok () →
       (cacheGet (remove id userId s).2.1.cache (articleKey id) = none ∧
        (∀ k, k ≠ articleKey id →
          cacheGet (remove id userId s).2.1.cache k = cacheGet s.cache k) ∧
        ((remove id userId s).2.2.filter isCacheDel =
          [Eff.cDel (articleKey id)]) ∧
        (∃ pre m, isStoreMut m = true ∧
          (remove id userId s).2.2 = pre ++ [m, Eff.cDel (articleKey id)]))) := by
  constructor
  · intro v hv
    cases hfb : hasFields dto with
    | false => simp [update, hfb] at hv
    | true =>
        cases hc : cacheGet s.cache (articleKey id) with
        | some v0 =>
            cases v0 with
            | pageRes r => simp [update, findOne, hfb, hc] at hv
            | art a =>
                by_cases ha : a.authorId = userId
                · refine ⟨?_, fun k hk => ?_, ?_, ?_⟩
                  · simp [update, findOne, hfb, hc, ha, invalidateArticleCache,
                      cacheGet_cacheDel_self]
                  · simp [update, findOne, hfb, hc, ha, invalidateArticleCache,
                      cacheGet_cacheDel_ne _ _ _ hk]
                  · simp [update, findOne, hfb, hc, ha, isCacheDel]
                  · exact ⟨[Eff.cGet (articleKey id)],
                      Eff.sSave (applyUpdate a dto), rfl,
                      by simp [update, findOne, hfb, hc, ha]⟩
                · simp [update, findOne, hfb, hc, ha] at hv
        | none =>
            cases hs : storeFindOne s.store id with
            | none => simp [update, findOne, hfb, hc, hs] at hv
            | some a =>
                by_cases ha : a.authorId = userId
                · refine ⟨?_, fun k hk => ?_, ?_, ?_⟩
                  · simp [update, findOne, hfb, hc, hs, ha,
                      invalidateArticleCache, cacheGet_cacheDel_self]
                  · simp [update, findOne, hfb, hc, hs, ha,
                      invalidateArticleCache,
                      cacheGet_cacheDel_ne _ _ _ hk,
                      cacheGet_cacheSet_ne _ _ _ _ hk]
                  · simp [update, findOne, hfb, hc, hs, ha, isCacheDel]
                  · exact ⟨[Eff.cGet (articleKey id), Eff.sFindOne id,
                      Eff.cSet (articleKey id) (CVal.art a) 300000],
                      Eff.sSave (applyUpdate a dto), rfl,
                      by simp [update, findOne, hfb, hc, hs, ha]⟩
                · simp [update, findOne, hfb, hc, hs, ha] at hv
  · intro hv
    cases hc : cacheGet s.cache (articleKey id) with
    | some v0 =>
        cases v0 with
        | pageRes r => simp [remove, findOne, hc] at hv
        | art a =>
            by_cases ha : a.authorId = userId
            · refine ⟨?_, fun k hk => ?_, ?_, ?_⟩
              · simp [remove, findOne, hc, ha, invalidateArticleCache,
                  cacheGet_cacheDel_self]
              · simp [remove, findOne, hc, ha, invalidateArticleCache,
                  cacheGet_cacheDel_ne _ _ _ hk]
              · simp [remove, findOne, hc, ha, isCacheDel]
              · exact ⟨[Eff.cGet (articleKey id)], Eff.sRemove a.id, rfl,
                  by simp [remove, findOne, hc, ha]⟩
            · simp [remove, findOne, hc, ha] at hv
    | none =>
        cases hs : storeFindOne s.store id with
        | none => simp [remove, findOne, hc, hs] at hv
        | some a =>
            by_cases ha : a.authorId = userId
            · refine ⟨?_, fun k hk => ?_, ?_, ?_⟩
              · simp [remove, findOne, hc, hs, ha, invalidateArticleCache,
                  cacheGet_cacheDel_self]
              · simp [remove, findOne, hc, hs, ha, invalidateArticleCache,
                  cacheGet_cacheDel_ne _ _ _ hk,
                  cacheGet_cacheSet_ne _ _ _ _ hk]
              · simp [remove, findOne, hc, hs, ha, isCacheDel]
              · exact ⟨[Eff.cGet (articleKey id), Eff.sFindOne id,
                  Eff.cSet (articleKey id) (CVal.art a) 300000],
                  Eff.sRemove a.id, rfl,
                  by simp [remove, findOne, hc, hs, ha]⟩
            · simp [remove, findOne, hc, hs, ha] at hv

/-- Witness for C9: a successful update and a successful remove on a
state that also caches a collection entry, which is left untouched. -/
theorem mutation_invalidation_frame_witness :
    cacheGet (update ("a1") updDto ("u1") stColl).2.1.cache
      (articleKey ("a1")) = none ∧
    cacheGet (update ("a1") updDto ("u1") stColl).2.1.cache
      (articlesCacheKey []) = cacheGet stColl.cache (articlesCacheKey []) ∧
    (update ("a1") updDto ("u1") stColl).2.2.filter isCacheDel =
      [Eff.cDel (articleKey ("a1"))] ∧
    cacheGet (remove ("a1") ("u1") stColl).2.1.cache
      (articleKey ("a1")) = none ∧
    (remove ("a1") ("u1") stColl).2.2.filter isCacheDel =
      [Eff.cDel (articleKey ("a1"))] := by
  have h1 := (mutation_invalidation_frame ("a1") ("u1") updDto stColl).1
    (CVal.art art1upd) (by decide)
  have h2 := (mutation_invalidation_frame ("a1") ("u1") updDto stColl).2
    (by decide)
  exact ⟨h1.1, h1.2.1 (articlesCacheKey []) (by decide), h1.2.2.1,
    h2.1, h2.2.2.1⟩
